import Mathlib

/-! # winss: service supervision

A shallow embedding of `lib/winss/svscan/service.hpp` (the `ServiceTmpl`
class template), of `lib/winss/event_wrapper.cpp`, and of the scanner
operations exercised by `test/svscan/svscan_test.cpp`, whose header
`svscan.hpp` is not among the sources and is modelled from the specification.

Calls that leave the class (to the two supervisors, to the `WINDOWS` and
`FILESYSTEM` singletons) are recorded, in order, in a trace that is threaded
through every operation; what those collaborators answer is a parameter.
-/

set_option autoImplicit false

namespace winss

/-! ## Types declared outside `service.hpp` -/

/-- A Windows `HANDLE`; the value `0` stands for `nullptr`. -/
abbrev HANDLE := Nat

/-- The null handle. -/
def nullptr : HANDLE := 0

/-- A filesystem path, as the list of its components. -/
abbrev Path := List String

/-- The Windows `SECURITY_ATTRIBUTES` record. The descriptor pointer is
`none` for `nullptr`. -/
structure SECURITY_ATTRIBUTES where
  nLength : Nat
  bInheritHandle : Bool
  lpSecurityDescriptor : Option Nat
  deriving DecidableEq, Repr

/-- The value of `sizeof(SECURITY_ATTRIBUTES)`; it is fixed by the platform
headers and no property below depends on it. -/
def sizeof_SECURITY_ATTRIBUTES : Nat := 24

/-- A `winss::HandleWrapper`, as far as `service.hpp` builds one: either
default-constructed, or constructed over a raw handle. -/
inductive HandleWrapper where
  | empty : HandleWrapper
  | wrap (handle : HANDLE) : HandleWrapper
  deriving DecidableEq, Repr

/-- Modelled from the spec: the struct `winss::ServicePipes` of
`service_process.hpp`, "a pair {reader_handle, writer_handle}". The members
are in the order in which `CreatePipes` brace-initialises them. -/
structure ServicePipes where
  stdin_pipe : HandleWrapper
  stdout_pipe : HandleWrapper
  deriving DecidableEq, Repr

/-- The value of `winss::ServicePipes{}`: both members default-constructed. -/
def ServicePipes.default : ServicePipes :=
  { stdin_pipe := HandleWrapper.empty, stdout_pipe := HandleWrapper.empty }

/-- Modelled from the spec: the part of `TServiceProcess` that `ServiceTmpl`
reads, namely the constructor arguments `(service_dir, is_log)` and
`GetServiceDir()`, "the owned directory path". -/
structure TServiceProcess where
  service_dir : Path
  is_log : Bool
  deriving DecidableEq, Repr

/-- The accessor `TServiceProcess::GetServiceDir`. -/
def TServiceProcess.GetServiceDir (p : TServiceProcess) : Path := p.service_dir

/-- Every call that leaves `ServiceTmpl`, with its arguments. `Start` receives
the pipe pair as the caller holds it at the time of the call. -/
inductive Call where
  | DirectoryExists (dir : Path) : Call
  | CreatePipe (sa : SECURITY_ATTRIBUTES) (nSize : Nat) : Call
  | log_Start (pipes : ServicePipes) : Call
  | main_Start (pipes : ServicePipes) : Call
  | main_Close (ignore_flagged : Bool) : Call
  | log_Close (ignore_flagged : Bool) : Call
  deriving DecidableEq, Repr

/-- The calls made so far, oldest first. -/
abbrev Trace := List Call

/-- What the collaborators of `ServiceTmpl` answer.

* `DirectoryExists` is `FILESYSTEM.DirectoryExists`.
* `CreatePipe hRead hWrite sa nSize` is `WINDOWS.CreatePipe`: it receives the
  current contents of the two out-parameters and returns the `BOOL` result
  together with their contents after the call.
* `main_Close` and `log_Close` are the results of `Close` on the two
  supervisors. -/
structure World where
  DirectoryExists : Path → Bool
  CreatePipe : HANDLE → HANDLE → SECURITY_ATTRIBUTES → Nat → Bool × HANDLE × HANDLE
  main_Close : Bool → Bool
  log_Close : Bool → Bool

/-! ## `ServiceTmpl` -/

/-- The data members of `ServiceTmpl<TServiceProcess>`. -/
structure ServiceTmpl where
  name : String
  main : TServiceProcess
  log : TServiceProcess
  deriving DecidableEq, Repr

namespace ServiceTmpl

/-- The constant `ServiceTmpl::kLogDir`. -/
def kLogDir : String := "log"

/-- The constructor `ServiceTmpl(name, service_dir)`: `main` supervises
`service_dir`, `log` supervises `service_dir / kLogDir`. -/
def new (name : String) (service_dir : Path) : ServiceTmpl :=
  { name := name
    main := { service_dir := service_dir, is_log := false }
    log := { service_dir := service_dir ++ [kLogDir], is_log := true } }

/-- The method `GetName`. -/
def GetName (s : ServiceTmpl) : String := s.name

/-- The method `ServiceTmpl::CreatePipes`. -/
def CreatePipes (w : World) (tr : Trace) : ServicePipes × Trace :=
  let sa : SECURITY_ATTRIBUTES :=
    { nLength := sizeof_SECURITY_ATTRIBUTES
      bInheritHandle := false
      lpSecurityDescriptor := none }
  let stdin_pipe : HANDLE := nullptr
  let stdout_pipe : HANDLE := nullptr
  let r := w.CreatePipe stdin_pipe stdout_pipe sa 0
  let tr := tr ++ [Call.CreatePipe sa 0]
  if !r.1 then
    (ServicePipes.default, tr)
  else
    ({ stdin_pipe := HandleWrapper.wrap r.2.1
       stdout_pipe := HandleWrapper.wrap r.2.2 }, tr)

/-- The method `ServiceTmpl::Check`. -/
def Check (w : World) (s : ServiceTmpl) (tr : Trace) : Trace :=
  let pipes : ServicePipes := ServicePipes.default
  let dir := s.log.GetServiceDir
  let tr := tr ++ [Call.DirectoryExists dir]
  if w.DirectoryExists dir then
    let r := CreatePipes w tr
    let pipes := r.1
    let tr := r.2 ++ [Call.log_Start pipes]
    tr ++ [Call.main_Start pipes]
  else
    tr ++ [Call.main_Start pipes]

/-- The method `ServiceTmpl::Close`: the result and the extended trace. -/
def Close (w : World) (_s : ServiceTmpl) (ignore_flagged : Bool) (tr : Trace) :
    Bool × Trace :=
  let flagged := w.main_Close ignore_flagged
  let tr := tr ++ [Call.main_Close ignore_flagged]
  let _unused := w.log_Close (ignore_flagged || !flagged)
  let tr := tr ++ [Call.log_Close (ignore_flagged || !flagged)]
  (flagged, tr)

end ServiceTmpl

/-! ## `EventWrapper` over a model of kernel events -/

/-- A kernel event object: its name, its reset mode and the flag that says
whether it is signalled. -/
structure KernelEvent where
  lpName : Option String
  bManualReset : Bool
  signalled : Bool
  deriving DecidableEq, Repr

/-- The kernel objects reachable through `WINDOWS`: the event behind each
open handle, the handle the next creation hands out, and whether the kernel
still has room for a new object. -/
structure Kernel where
  events : HANDLE → Option KernelEvent
  next : HANDLE
  room : Bool

/-- The result `WAIT_OBJECT_0` of a wait. -/
def WAIT_OBJECT_0 : Nat := 0x00000000
/-- The result `WAIT_TIMEOUT` of a wait. -/
def WAIT_TIMEOUT : Nat := 0x00000102
/-- The result `WAIT_FAILED` of a wait. -/
def WAIT_FAILED : Nat := 0xFFFFFFFF

namespace Kernel

/-- The event behind a handle; the null handle refers to nothing. -/
def lookup (k : Kernel) (h : HANDLE) : Option KernelEvent :=
  if h = nullptr then none else k.events h

/-- The call `CreateEvent(lpEventAttributes, bManualReset, bInitialState,
lpName)`: a fresh non-null handle on a new event, or `nullptr` when the
kernel cannot create one. -/
def CreateEvent (k : Kernel) (_lpEventAttributes : Option Nat) (bManualReset : Bool)
    (bInitialState : Bool) (lpName : Option String) : HANDLE × Kernel :=
  if k.room then
    let h : HANDLE := k.next + 1
    let ev : KernelEvent :=
      { lpName := lpName, bManualReset := bManualReset, signalled := bInitialState }
    (h, { k with events := Function.update k.events h (some ev), next := h })
  else
    (nullptr, k)

/-- The call `SetEvent(h)`: raises the flag of the event; fails on a handle
that refers to no event. -/
def SetEvent (k : Kernel) (h : HANDLE) : Bool × Kernel :=
  match k.lookup h with
  | none => (false, k)
  | some ev =>
    (true, { k with events := Function.update k.events h (some { ev with signalled := true }) })

/-- The call `WaitForSingleObject(h, dwMilliseconds)` made by the only thread
that touches the event: it fails on a handle that refers to no event, times
out on a flag that is down, and otherwise succeeds, taking the flag down again
unless the event is manual-reset. -/
def WaitForSingleObject (k : Kernel) (h : HANDLE) (_dwMilliseconds : Nat) : Nat × Kernel :=
  match k.lookup h with
  | none => (WAIT_FAILED, k)
  | some ev =>
    if ev.signalled then
      if ev.bManualReset then (WAIT_OBJECT_0, k)
      else
        (WAIT_OBJECT_0,
          { k with events := Function.update k.events h (some { ev with signalled := false }) })
    else (WAIT_TIMEOUT, k)

end Kernel

/-- The data member of `winss::EventWrapper`. -/
structure EventWrapper where
  handle : HANDLE
  deriving DecidableEq, Repr

namespace EventWrapper

/-- The constructor `EventWrapper::EventWrapper`. -/
def new (k : Kernel) : EventWrapper × Kernel :=
  let r := k.CreateEvent none true false none
  ({ handle := r.1 }, r.2)

/-- The comparison that `IsSet` applies to the result of the wait. -/
def IsSet_of_wait (waitResult : Nat) : Bool := waitResult != WAIT_TIMEOUT

/-- The method `EventWrapper::IsSet`. -/
def IsSet (e : EventWrapper) (k : Kernel) : Bool × Kernel :=
  let r := k.WaitForSingleObject e.handle 0
  (IsSet_of_wait r.1, r.2)

/-- The method `EventWrapper::Set`. -/
def Set (e : EventWrapper) (k : Kernel) : Bool × Kernel :=
  k.SetEvent e.handle

/-- The two operations of a wrapper that touch the kernel. -/
inductive Op where
  | Set : Op
  | IsSet : Op
  deriving DecidableEq, Repr

/-- The kernel after a sequence of operations on one wrapper. -/
def run (e : EventWrapper) : List Op → Kernel → Kernel
  | [], k => k
  | Op.Set :: ops, k => run e ops (e.Set k).2
  | Op.IsSet :: ops, k => run e ops (e.IsSet k).2

end EventWrapper

/-! ## The scanner -/

namespace SvScan

/-- Modelled from the spec: the service type `TService` of `SvScanTmpl`
(`svscan.hpp` and `mock_service.hpp` are not among the sources), as the scanner
uses it: its name, its directory, and what its `Close` answers to each
argument (for the mock services of the tests, the programmed return values). -/
structure TService where
  name : String
  service_dir : Path
  Close_reply : Bool → Bool

/-- The construction `TService(name, dir)` of a service the scanner has just
discovered; until told otherwise its `Close` answers `false`, as a mock
without expectations does. -/
def TService.new (name : String) (dir : Path) : TService :=
  { name := name, service_dir := dir, Close_reply := fun _ => false }

/-- The calls the scanner makes on services, with the name of the receiver. -/
inductive SvcCall where
  | construct (name : String) : SvcCall
  | Check (name : String) : SvcCall
  | Close (name : String) (force : Bool) : SvcCall
  deriving DecidableEq, Repr

/-- Modelled from the spec: the test of `SvScanTmpl::Scan` for a hidden entry,
one "whose name" does "start with `.`". -/
def hidden (name : String) : Bool :=
  match name.data with
  | c :: _ => c == '.'
  | [] => false

/-- Modelled from the spec: the form under which two names are compared,
"names are case-insensitive on this platform but stored as observed on disk":
the characters of the name with the letters `A` to `Z` lowered. -/
def foldCase (name : String) : List Char := name.data.map Char.toLower

/-- Modelled from the spec: whether two names are the same name on this
platform, that is, equal without regard to case. -/
def sameName (a b : String) : Bool := foldCase a == foldCase b

/-- Modelled from the spec: whether a list of names holds the given name,
names being compared without regard to case. -/
def hasName (ns : List String) (name : String) : Bool :=
  ns.any (fun m => sameName m name)

/-- Modelled from the spec: the "look up by name" of `SvScanTmpl::Scan`,
whether the vector already holds a service of that name. -/
def known (services : List TService) (name : String) : Bool :=
  services.any (fun s => sameName s.name name)

/-- Modelled from the spec: the first half of the diff of `SvScanTmpl::Scan`
(`svscan.hpp` is not among the sources). "For every entry that is a directory
and whose name does not start with `.`, look up by name. Unknown → construct
Service and append. Known → keep." -/
def addNew : List String → List TService → List TService × List SvcCall
  | [], services => (services, [])
  | name :: rest, services =>
    if hidden name then addNew rest services
    else if known services name then addNew rest services
    else
      let r := addNew rest (services ++ [TService.new name [name]])
      (r.1, SvcCall.construct name :: r.2)

/-- Modelled from the spec: the second half of the diff of
`SvScanTmpl::Scan`. "Missing from disk → mark for removal and
Close(force=true)." -/
def dropMissing (listing : List String) : List TService → List TService × List SvcCall
  | [] => ([], [])
  | s :: rest =>
    let r := dropMissing listing rest
    if hasName listing s.name then (s :: r.1, r.2)
    else (r.1, SvcCall.Close s.name true :: r.2)

/-- Modelled from the spec: the end of `SvScanTmpl::Scan`. "After the diff,
call `Check()` on every surviving service." -/
def checkAll : List TService → List SvcCall
  | [] => []
  | s :: rest => SvcCall.Check s.name :: checkAll rest

/-- Modelled from the spec: `SvScanTmpl::Scan` (`svscan.hpp` is not among the
sources), on the listing that `GetDirectories` returned. "Requires the mutex
be held; otherwise no-op." The result is the new vector and the calls made. -/
def Scan (hasLock : Bool) (listing : List String) (services : List TService) :
    List TService × List SvcCall :=
  if !hasLock then (services, [])
  else
    let a := addNew listing services
    let d := dropMissing listing a.1
    (d.1, a.2 ++ d.2 ++ checkAll d.1)

/-- Modelled from the spec: `SvScanTmpl::CloseAllServices` (`svscan.hpp` is
not among the sources). "For each live service, `Close(force)`; remove from
the vector those whose `Close` returned false." -/
def CloseAllServices (force : Bool) : List TService → List TService × List SvcCall
  | [] => ([], [])
  | s :: rest =>
    let flagged := s.Close_reply force
    let r := CloseAllServices force rest
    if flagged then (s :: r.1, SvcCall.Close s.name force :: r.2)
    else (r.1, SvcCall.Close s.name force :: r.2)

/-- The names of the services of a vector, in order. -/
def names (services : List TService) : List String := services.map (fun s => s.name)

/-- The names a scan finds new: the entries of the listing that are not hidden
and not among the names seen so far, each taken the first time it occurs. -/
def newNames : List String → List String → List String
  | _, [] => []
  | seen, n :: rest =>
    if hidden n then newNames seen rest
    else if hasName seen n then newNames seen rest
    else n :: newNames (seen ++ [n]) rest

/-- A first scan of an empty vector followed by a rescan, both with the
mutex held. -/
def rescan (first second : List String) : List TService × List SvcCall :=
  Scan true second (Scan true first []).1

end SvScan

end winss

/-! ## Concrete collaborators, for evaluating the operations -/

namespace winss

/-- The security attributes that `CreatePipes` fills in before it asks for a
pipe. -/
def pipeAttributes : SECURITY_ATTRIBUTES :=
  { nLength := sizeof_SECURITY_ATTRIBUTES, bInheritHandle := false,
    lpSecurityDescriptor := none }

/-- A machine on which no directory exists and no pipe can be had. -/
def bareWorld : World :=
  { DirectoryExists := fun _ => false
    CreatePipe := fun hRead hWrite _ _ => (false, hRead, hWrite)
    main_Close := fun _ => false
    log_Close := fun _ => false }

/-- A machine on which every directory exists and the pipe `(7, 8)` is
handed out. -/
def loggingWorld : World :=
  { DirectoryExists := fun _ => true
    CreatePipe := fun _ _ _ _ => (true, 7, 8)
    main_Close := fun force => !force
    log_Close := fun _ => true }

/-- A machine on which every directory exists and pipe creation fails. -/
def brokenPipeWorld : World :=
  { DirectoryExists := fun _ => true
    CreatePipe := fun hRead hWrite _ _ => (false, hRead, hWrite)
    main_Close := fun _ => false
    log_Close := fun _ => false }

/-- A kernel without any object, able to create one. -/
def emptyKernel : Kernel :=
  { events := fun _ => none, next := 0, room := true }

/-- A kernel without any object that cannot create one. -/
def fullKernel : Kernel :=
  { events := fun _ => none, next := 0, room := false }

end winss

/-! ## Theorems about `ServiceTmpl` -/

namespace winss

/-- C1: for every force argument and every answer of `main.Close`,
`ServiceTmpl::Close(force)` calls `main.Close(force)` first and then
`log.Close` exactly once, with the argument `force || !r` where `r` is what
`main.Close(force)` returned; that argument is false exactly when `force` is
false and `r` is true. -/
theorem Close_calls_main_then_log (w : World) (s : ServiceTmpl) (force : Bool)
    (tr : Trace) :
    (ServiceTmpl.Close w s force tr).2
        = tr ++ [Call.main_Close force, Call.log_Close (force || !(w.main_Close force))]
      ∧ ((force || !(w.main_Close force)) = false
          ↔ (force = false ∧ w.main_Close force = true)) := by
  refine ⟨by simp [ServiceTmpl.Close], ?_⟩
  cases force <;> cases w.main_Close _ <;> simp

/-- C2: for every force argument, `ServiceTmpl::Close(force)` returns what
`main.Close(force)` returned, whatever answers `log.Close` gives. -/
theorem Close_returns_main_flag (w : World) (logAnswers : Bool → Bool)
    (s : ServiceTmpl) (force : Bool) (tr : Trace) :
    (ServiceTmpl.Close { w with log_Close := logAnswers } s force tr).1
      = w.main_Close force := by
  simp [ServiceTmpl.Close]

/-- C3: for a service constructed with directory `d`, when `d/log` exists, one
`Check` asks the OS for a pipe exactly once, then calls `log.Start`, then
`main.Start`, each once and both with the pair that `CreatePipes` returned;
when the OS call succeeds that pair is the read end and the write end of the
pipe just created. -/
theorem Check_with_log_dir (w : World) (name : String) (d : Path) (tr : Trace)
    (hlog : w.DirectoryExists (d ++ ["log"]) = true) :
    ∃ pipes : ServicePipes,
      ServiceTmpl.Check w (ServiceTmpl.new name d) tr
        = tr ++ [Call.DirectoryExists (d ++ ["log"]), Call.CreatePipe pipeAttributes 0,
                 Call.log_Start pipes, Call.main_Start pipes]
      ∧ pipes = (ServiceTmpl.CreatePipes w (tr ++ [Call.DirectoryExists (d ++ ["log"])])).1
      ∧ ((w.CreatePipe nullptr nullptr pipeAttributes 0).1 = true →
          pipes =
            { stdin_pipe :=
                HandleWrapper.wrap (w.CreatePipe nullptr nullptr pipeAttributes 0).2.1
              stdout_pipe :=
                HandleWrapper.wrap (w.CreatePipe nullptr nullptr pipeAttributes 0).2.2 }) := by
  refine ⟨_, ?_, rfl, ?_⟩
  · simp only [ServiceTmpl.Check, ServiceTmpl.new, ServiceTmpl.kLogDir,
      TServiceProcess.GetServiceDir, hlog, if_true, ServiceTmpl.CreatePipes, pipeAttributes]
    split <;> simp
  · intro hok
    simp only [ServiceTmpl.CreatePipes, pipeAttributes] at hok ⊢
    simp [hok]

/-- C4: when the log directory of a service does not exist, one `Check` asks
for no pipe, never calls `log.Start`, and calls `main.Start` exactly once with
the default-constructed pipe pair. -/
theorem Check_without_log_dir (w : World) (s : ServiceTmpl) (tr : Trace)
    (hlog : w.DirectoryExists s.log.GetServiceDir = false) :
    ServiceTmpl.Check w s tr
      = tr ++ [Call.DirectoryExists s.log.GetServiceDir,
               Call.main_Start ServicePipes.default] := by
  simp [ServiceTmpl.Check, hlog]

/-- C8: `CreatePipes` asks the OS for one pipe, with security attributes whose
inherit flag is false and whose descriptor is null; when the OS call succeeds
the pair returned holds the read end it produced as first (stdin) member and
the write end as second (stdout) member. -/
theorem CreatePipes_not_inheritable (w : World) (tr : Trace) :
    ∃ sa : SECURITY_ATTRIBUTES,
      (ServiceTmpl.CreatePipes w tr).2 = tr ++ [Call.CreatePipe sa 0]
      ∧ sa.bInheritHandle = false
      ∧ sa.lpSecurityDescriptor = none
      ∧ ((w.CreatePipe nullptr nullptr sa 0).1 = true →
          (ServiceTmpl.CreatePipes w tr).1 =
            { stdin_pipe := HandleWrapper.wrap (w.CreatePipe nullptr nullptr sa 0).2.1
              stdout_pipe := HandleWrapper.wrap (w.CreatePipe nullptr nullptr sa 0).2.2 }) := by
  refine ⟨pipeAttributes, ?_, rfl, rfl, ?_⟩
  · simp only [ServiceTmpl.CreatePipes, pipeAttributes]
    split <;> rfl
  · intro hok
    simp only [ServiceTmpl.CreatePipes, pipeAttributes] at hok ⊢
    simp [hok]

/-- C9: when the log directory exists and the OS refuses the pipe,
`CreatePipes` returns the default-constructed pair and `Check` still calls
`log.Start` and then `main.Start`, each once and each with that empty pair. -/
theorem Check_when_pipe_fails (w : World) (s : ServiceTmpl) (tr : Trace)
    (hlog : w.DirectoryExists s.log.GetServiceDir = true)
    (hfail : (w.CreatePipe nullptr nullptr pipeAttributes 0).1 = false) :
    (ServiceTmpl.CreatePipes w (tr ++ [Call.DirectoryExists s.log.GetServiceDir])).1
        = ServicePipes.default
      ∧ ServiceTmpl.Check w s tr
        = tr ++ [Call.DirectoryExists s.log.GetServiceDir,
                 Call.CreatePipe pipeAttributes 0,
                 Call.log_Start ServicePipes.default,
                 Call.main_Start ServicePipes.default] := by
  simp only [pipeAttributes] at hfail
  constructor
  · simp [ServiceTmpl.CreatePipes, hfail]
  · simp [ServiceTmpl.Check, hlog, ServiceTmpl.CreatePipes, hfail, pipeAttributes]

/-- Witness for C3: with the log directory present and the pipe `(7, 8)`
granted, `Check` on the service of directory `web` starts `log` and then
`main` on that pipe. -/
theorem Check_with_log_dir_witness :
    ServiceTmpl.Check loggingWorld (ServiceTmpl.new "web" ["web"]) []
      = [Call.DirectoryExists ["web", "log"], Call.CreatePipe pipeAttributes 0,
         Call.log_Start { stdin_pipe := HandleWrapper.wrap 7, stdout_pipe := HandleWrapper.wrap 8 },
         Call.main_Start
           { stdin_pipe := HandleWrapper.wrap 7, stdout_pipe := HandleWrapper.wrap 8 }] := by
  obtain ⟨pipes, hcalls, _, hpipes⟩ :=
    Check_with_log_dir loggingWorld "web" ["web"] [] rfl
  rw [hcalls, hpipes rfl]
  rfl

/-- Witness for C4: without a log directory, `Check` on the service of
directory `web` only starts `main`, on the empty pair. -/
theorem Check_without_log_dir_witness :
    ServiceTmpl.Check bareWorld (ServiceTmpl.new "web" ["web"]) []
      = [Call.DirectoryExists ["web", "log"], Call.main_Start ServicePipes.default] :=
  Check_without_log_dir bareWorld (ServiceTmpl.new "web" ["web"]) [] rfl

/-- Witness for C8: when the OS grants the pipe `(7, 8)`, `CreatePipes`
returns the read end `7` first and the write end `8` second. -/
theorem CreatePipes_not_inheritable_witness :
    (ServiceTmpl.CreatePipes loggingWorld []).1
      = { stdin_pipe := HandleWrapper.wrap 7, stdout_pipe := HandleWrapper.wrap 8 } := by
  obtain ⟨sa, _, _, _, hpair⟩ := CreatePipes_not_inheritable loggingWorld []
  exact hpair rfl

/-- Witness for C9: with the log directory present and pipe creation failing,
`Check` on the service of directory `web` starts both supervisors on the empty
pair. -/
theorem Check_when_pipe_fails_witness :
    ServiceTmpl.Check brokenPipeWorld (ServiceTmpl.new "web" ["web"]) []
      = [Call.DirectoryExists ["web", "log"], Call.CreatePipe pipeAttributes 0,
         Call.log_Start ServicePipes.default, Call.main_Start ServicePipes.default] :=
  (Check_when_pipe_fails brokenPipeWorld (ServiceTmpl.new "web" ["web"]) [] rfl rfl).2

end winss

/-! ## Theorems about `EventWrapper` -/

namespace winss

theorem Kernel.lookup_update (k : Kernel) (h : HANDLE) (hne : h ≠ nullptr)
    (ev : KernelEvent) (next : HANDLE) (room : Bool) :
    Kernel.lookup { events := Function.update k.events h (some ev), next := next, room := room } h
      = some ev := by
  simp [Kernel.lookup, hne]

theorem Kernel.ne_nullptr_of_lookup {k : Kernel} {h : HANDLE} {ev : KernelEvent}
    (hl : k.lookup h = some ev) : h ≠ nullptr := by
  intro h0
  simp [Kernel.lookup, h0] at hl

theorem EventWrapper.lookup_new (k : Kernel) (hroom : k.room = true) :
    (EventWrapper.new k).2.lookup (EventWrapper.new k).1.handle
      = some { lpName := none, bManualReset := true, signalled := false } := by
  simp [EventWrapper.new, Kernel.CreateEvent, hroom, Kernel.lookup, nullptr]

theorem EventWrapper.IsSet_manual {e : EventWrapper} {k : Kernel} {ev : KernelEvent}
    (hl : k.lookup e.handle = some ev) (hm : ev.bManualReset = true) :
    e.IsSet k = (ev.signalled, k) := by
  cases hs : ev.signalled <;>
    simp [EventWrapper.IsSet, Kernel.WaitForSingleObject, hl, hm, hs,
      EventWrapper.IsSet_of_wait, WAIT_TIMEOUT, WAIT_OBJECT_0]

theorem EventWrapper.Set_valid {e : EventWrapper} {k : Kernel} {ev : KernelEvent}
    (hl : k.lookup e.handle = some ev) :
    (e.Set k).1 = true
      ∧ (e.Set k).2.lookup e.handle = some { ev with signalled := true } := by
  have hne := Kernel.ne_nullptr_of_lookup hl
  simp only [EventWrapper.Set, Kernel.SetEvent, hl]
  exact ⟨trivial, Kernel.lookup_update k e.handle hne _ _ _⟩

theorem EventWrapper.Set_success {e : EventWrapper} {k : Kernel}
    (hs : (e.Set k).1 = true) :
    ∃ ev, (e.Set k).2.lookup e.handle = some ev ∧ ev.signalled = true := by
  cases hl : k.lookup e.handle with
  | none => simp [EventWrapper.Set, Kernel.SetEvent, hl] at hs
  | some ev => exact ⟨_, (EventWrapper.Set_valid hl).2, rfl⟩

theorem EventWrapper.IsSet_signalled {e : EventWrapper} {k : Kernel} {ev : KernelEvent}
    (hl : k.lookup e.handle = some ev) (hs : ev.signalled = true) :
    (e.IsSet k).1 = true := by
  cases hm : ev.bManualReset <;>
    simp [EventWrapper.IsSet, Kernel.WaitForSingleObject, hl, hm, hs,
      EventWrapper.IsSet_of_wait, WAIT_TIMEOUT, WAIT_OBJECT_0]

theorem EventWrapper.run_manual (e : EventWrapper) (ops : List EventWrapper.Op) :
    ∀ (k : Kernel) (ev : KernelEvent), k.lookup e.handle = some ev → ev.bManualReset = true →
      ∃ ev', (EventWrapper.run e ops k).lookup e.handle = some ev'
        ∧ ev'.bManualReset = true ∧ ev'.lpName = ev.lpName := by
  induction ops with
  | nil => intro k ev hl hm; exact ⟨ev, hl, hm, rfl⟩
  | cons op ops ih =>
    intro k ev hl hm
    cases op with
    | Set =>
      obtain ⟨ev', h1, h2, h3⟩ := ih (e.Set k).2 _ (EventWrapper.Set_valid hl).2 hm
      exact ⟨ev', h1, h2, h3⟩
    | IsSet =>
      have hk : (e.IsSet k).2 = k := by rw [EventWrapper.IsSet_manual hl hm]
      obtain ⟨ev', h1, h2, h3⟩ := ih k ev hl hm
      refine ⟨ev', ?_, h2, h3⟩
      simpa [EventWrapper.run, hk] using h1

/-- C10: with the kernel event modelled as a flag, a wrapper constructed
while the kernel can create events sits on an unnamed, manual-reset event whose
flag is down; `IsSet` is false on the fresh wrapper; after any sequence of
`Set` and `IsSet` calls on it, `Set` succeeds, `IsSet` leaves the kernel as it
was and a second `IsSet` agrees with the first; in any kernel state `IsSet` is
true after a successful `Set`; and `IsSet` answers true for every wait result
other than `WAIT_TIMEOUT`, `WAIT_FAILED` included, as on a wrapper whose event
could not be created. -/
theorem EventWrapper_flag (k : Kernel) (hroom : k.room = true)
    (ops : List EventWrapper.Op) :
    (EventWrapper.new k).2.lookup (EventWrapper.new k).1.handle
        = some { lpName := none, bManualReset := true, signalled := false }
      ∧ ((EventWrapper.new k).1.IsSet (EventWrapper.new k).2).1 = false
      ∧ ((EventWrapper.new k).1.Set
            (EventWrapper.run (EventWrapper.new k).1 ops (EventWrapper.new k).2)).1 = true
      ∧ ((EventWrapper.new k).1.IsSet
            (EventWrapper.run (EventWrapper.new k).1 ops (EventWrapper.new k).2)).2
          = EventWrapper.run (EventWrapper.new k).1 ops (EventWrapper.new k).2
      ∧ ((EventWrapper.new k).1.IsSet
            ((EventWrapper.new k).1.IsSet
              (EventWrapper.run (EventWrapper.new k).1 ops (EventWrapper.new k).2)).2).1
          = ((EventWrapper.new k).1.IsSet
              (EventWrapper.run (EventWrapper.new k).1 ops (EventWrapper.new k).2)).1
      ∧ (∀ (e : EventWrapper) (k' : Kernel), (e.Set k').1 = true →
            (e.IsSet (e.Set k').2).1 = true)
      ∧ (∀ waitResult : Nat, waitResult ≠ WAIT_TIMEOUT →
            EventWrapper.IsSet_of_wait waitResult = true)
      ∧ EventWrapper.IsSet_of_wait WAIT_FAILED = true
      ∧ (∀ k' : Kernel, k'.room = false →
            ((EventWrapper.new k').1.IsSet (EventWrapper.new k').2).1 = true) := by
  have hnew := EventWrapper.lookup_new k hroom
  obtain ⟨ev', hrun, hman, _⟩ :=
    EventWrapper.run_manual (EventWrapper.new k).1 ops (EventWrapper.new k).2 _ hnew rfl
  have hstay := EventWrapper.IsSet_manual hrun hman
  refine ⟨hnew, ?_, (EventWrapper.Set_valid hrun).1, ?_, ?_, ?_, ?_, ?_, ?_⟩
  · rw [EventWrapper.IsSet_manual hnew rfl]
  · rw [hstay]
  · simp only [hstay]
  · intro e k' hs
    obtain ⟨ev, hl, hsig⟩ := EventWrapper.Set_success hs
    exact EventWrapper.IsSet_signalled hl hsig
  · intro r hr
    simp [EventWrapper.IsSet_of_wait, hr]
  · decide
  · intro k' hfull
    simp [EventWrapper.new, Kernel.CreateEvent, hfull, EventWrapper.IsSet,
      Kernel.WaitForSingleObject, Kernel.lookup, EventWrapper.IsSet_of_wait, WAIT_FAILED,
      WAIT_TIMEOUT]

/-- Witness for C10: on a kernel that starts empty, the fresh wrapper is not
set, it is set after `Set`, `Set` still succeeds after `Set` and `IsSet`, and
a wrapper made on a kernel without room reports set. -/
theorem EventWrapper_flag_witness :
    ((EventWrapper.new emptyKernel).1.IsSet (EventWrapper.new emptyKernel).2).1 = false
      ∧ ((EventWrapper.new emptyKernel).1.IsSet
          ((EventWrapper.new emptyKernel).1.Set (EventWrapper.new emptyKernel).2).2).1 = true
      ∧ ((EventWrapper.new emptyKernel).1.Set
          (EventWrapper.run (EventWrapper.new emptyKernel).1
            [EventWrapper.Op.Set, EventWrapper.Op.IsSet] (EventWrapper.new emptyKernel).2)).1
          = true
      ∧ ((EventWrapper.new fullKernel).1.IsSet (EventWrapper.new fullKernel).2).1 = true := by
  have h := EventWrapper_flag emptyKernel rfl [EventWrapper.Op.Set, EventWrapper.Op.IsSet]
  refine ⟨h.2.1, ?_, h.2.2.1, h.2.2.2.2.2.2.2.2 fullKernel rfl⟩
  exact h.2.2.2.2.2.1 (EventWrapper.new emptyKernel).1 (EventWrapper.new emptyKernel).2
    ((EventWrapper_flag emptyKernel rfl []).2.2.1)

end winss

/-! ## Theorems about the scanner -/

namespace winss.SvScan

theorem names_append (a b : List TService) : names (a ++ b) = names a ++ names b := by
  simp [names]

theorem names_new (l : List String) : names (l.map (fun n => TService.new n [n])) = l := by
  induction l with
  | nil => rfl
  | cons n rest ih =>
    simp only [names, List.map_cons, List.map_map] at ih ⊢
    rw [ih]; rfl

theorem names_snoc (v : List TService) (n : String) :
    names (v ++ [TService.new n [n]]) = names v ++ [n] := by
  rw [names_append]; rfl

theorem names_filter (v : List TService) (p : String → Bool) :
    names (v.filter (fun s => p s.name)) = (names v).filter p := by
  induction v with
  | nil => rfl
  | cons s rest ih =>
    simp only [names] at ih
    by_cases h : p s.name = true
    · simp [names, List.filter_cons, h, ih]
    · simp [names, List.filter_cons, h, ih]

theorem sameName_iff (a b : String) : sameName a b = true ↔ foldCase a = foldCase b := by
  simp [sameName]

theorem hasName_iff (ns : List String) (n : String) :
    hasName ns n = true ↔ foldCase n ∈ ns.map foldCase := by
  simp only [hasName, List.any_eq_true, sameName_iff, List.mem_map]

theorem hasName_of_mem {ns : List String} {n : String} (h : n ∈ ns) : hasName ns n = true :=
  (hasName_iff ns n).2 (List.mem_map.2 ⟨n, h, rfl⟩)

theorem hasName_append (a b : List String) (n : String) :
    hasName (a ++ b) n = (hasName a n || hasName b n) := by
  simp [hasName]

theorem known_eq (v : List TService) (n : String) : known v n = hasName (names v) n := by
  induction v with
  | nil => rfl
  | cons s rest ih =>
    simp only [known, hasName, names, List.any_cons, List.map_cons] at ih ⊢
    rw [ih]

theorem addNew_eq (l : List String) : ∀ v : List TService,
    addNew l v
      = (v ++ (newNames (names v) l).map (fun n => TService.new n [n]),
         (newNames (names v) l).map SvcCall.construct) := by
  induction l with
  | nil => intro v; simp [addNew, newNames]
  | cons n rest ih =>
    intro v
    by_cases hh : hidden n = true
    · simp [addNew, newNames, hh, ih]
    · by_cases hk : known v n = true
      · have hs : hasName (names v) n = true := by rw [← known_eq]; exact hk
        simp only [addNew, newNames, hh, hk, hs, if_true, Bool.false_eq_true, if_false, ih]
      · have hs : ¬ hasName (names v) n = true := by rw [← known_eq]; exact hk
        simp only [addNew, newNames, hh, hk, hs, if_true, Bool.false_eq_true, if_false, ih,
          names_snoc, List.map_cons, List.append_assoc, List.singleton_append]

theorem dropMissing_eq (l : List String) (v : List TService) :
    dropMissing l v
      = (v.filter (fun s => hasName l s.name),
         (v.filter (fun s => !hasName l s.name)).map (fun s => SvcCall.Close s.name true)) := by
  induction v with
  | nil => rfl
  | cons s rest ih =>
    by_cases h : hasName l s.name = true
    · simp only [dropMissing, ih, h, if_true]
      rw [List.filter_cons, List.filter_cons]
      simp only [h, if_true, Bool.not_true, Bool.false_eq_true, if_false]
    · have h1 : (!hasName l s.name) = true := by
        cases hc : hasName l s.name
        · rfl
        · exact absurd hc h
      simp only [dropMissing, ih, h, Bool.false_eq_true, if_false]
      rw [List.filter_cons, List.filter_cons]
      simp only [h, h1, if_true, if_false, List.map_cons, Bool.false_eq_true, Bool.not_false]

theorem checkAll_eq (v : List TService) :
    checkAll v = v.map (fun s => SvcCall.Check s.name) := by
  induction v with
  | nil => rfl
  | cons s rest ih => simp [checkAll, ih]

theorem mem_newNames_imp (l : List String) : ∀ (seen : List String) (n : String),
    n ∈ newNames seen l → n ∈ l ∧ hidden n = false ∧ hasName seen n = false := by
  induction l with
  | nil => intro seen n h; simp [newNames] at h
  | cons a rest ih =>
    intro seen n h
    by_cases hh : hidden a = true
    · simp only [newNames, hh, if_true] at h
      obtain ⟨h1, h2, h3⟩ := ih seen n h
      exact ⟨List.mem_cons_of_mem _ h1, h2, h3⟩
    · by_cases hs : hasName seen a = true
      · simp only [newNames, hh, hs, if_true, Bool.false_eq_true, if_false] at h
        obtain ⟨h1, h2, h3⟩ := ih seen n h
        exact ⟨List.mem_cons_of_mem _ h1, h2, h3⟩
      · simp only [newNames, hh, hs, Bool.false_eq_true, if_false, List.mem_cons] at h
        rcases h with rfl | h
        · exact ⟨List.mem_cons_self _ _, by simpa using hh, by simpa using hs⟩
        · obtain ⟨h1, h2, h3⟩ := ih (seen ++ [a]) n h
          rw [hasName_append] at h3
          exact ⟨List.mem_cons_of_mem _ h1, h2, (Bool.or_eq_false_iff.1 h3).1⟩

theorem newNames_fold_nodup (l : List String) : ∀ seen : List String,
    ((newNames seen l).map foldCase).Nodup := by
  induction l with
  | nil => intro seen; simp [newNames]
  | cons a rest ih =>
    intro seen
    by_cases hh : hidden a = true
    · simp only [newNames, hh, if_true]; exact ih seen
    · by_cases hs : hasName seen a = true
      · simp only [newNames, hh, hs, if_true, Bool.false_eq_true, if_false]; exact ih seen
      · simp only [newNames, hh, hs, Bool.false_eq_true, if_false, List.map_cons,
          List.nodup_cons]
        refine ⟨?_, ih _⟩
        intro hmem
        obtain ⟨m, hm, hfold⟩ := List.mem_map.1 hmem
        have h3 := (mem_newNames_imp rest (seen ++ [a]) m hm).2.2
        have : hasName (seen ++ [a]) m = true := by
          rw [hasName_iff, hfold]
          exact List.mem_map.2 ⟨a, by simp, rfl⟩
        rw [h3] at this
        exact Bool.false_ne_true this

theorem newNames_nodup (seen l : List String) : (newNames seen l).Nodup :=
  List.Nodup.of_map _ (newNames_fold_nodup l seen)

theorem newNames_of_nodup (l : List String) : ∀ seen : List String,
    (l.map foldCase).Nodup →
      newNames seen l = l.filter (fun n => !hidden n && !hasName seen n) := by
  induction l with
  | nil => intro seen _; rfl
  | cons a rest ih =>
    intro seen hnd
    rw [List.map_cons, List.nodup_cons] at hnd
    rw [List.filter_cons]
    by_cases hh : hidden a = true
    · simp only [newNames, hh, if_true, Bool.not_true, Bool.false_and, Bool.false_eq_true,
        if_false]
      exact ih seen hnd.2
    · by_cases hs : hasName seen a = true
      · simp only [newNames, hh, hs, if_true, Bool.false_eq_true, if_false, Bool.not_true,
          Bool.and_false]
        exact ih seen hnd.2
      · have hh' : hidden a = false := by simpa using hh
        have hs' : hasName seen a = false := by simpa using hs
        simp only [newNames, hh', hs', Bool.false_eq_true, if_false, Bool.not_false,
          Bool.and_self, if_true]
        congr 1
        rw [ih (seen ++ [a]) hnd.2]
        apply List.filter_congr
        intro m hm
        have hne : ¬ foldCase a = foldCase m := by
          intro e
          exact hnd.1 (e ▸ List.mem_map.2 ⟨m, hm, rfl⟩)
        have : hasName [a] m = false := by
          simp [hasName, sameName, hne]
        rw [hasName_append, this, Bool.or_false]

theorem newNames_eq_nil (l : List String) (seen : List String)
    (h : ∀ n ∈ l, hidden n = false → hasName seen n = true) : newNames seen l = [] := by
  induction l with
  | nil => rfl
  | cons a rest ih =>
    have hrest := ih (fun n hn => h n (List.mem_cons_of_mem _ hn))
    by_cases hh : hidden a = true
    · simp only [newNames, hh, if_true]; exact hrest
    · have hs := h a (List.mem_cons_self _ _) (by simpa using hh)
      simp only [newNames, hh, hs, if_true, Bool.false_eq_true, if_false]; exact hrest

theorem newNames_covers (l : List String) : ∀ (seen : List String) (n : String),
    n ∈ l → hidden n = false → hasName (seen ++ newNames seen l) n = true := by
  induction l with
  | nil => intro seen n h; simp at h
  | cons a rest ih =>
    intro seen n hn hv
    by_cases hh : hidden a = true
    · simp only [newNames, hh, if_true]
      rcases List.mem_cons.1 hn with rfl | hn
      · rw [hv] at hh; exact absurd hh Bool.false_ne_true
      · exact ih seen n hn hv
    · by_cases hs : hasName seen a = true
      · simp only [newNames, hh, hs, if_true, Bool.false_eq_true, if_false]
        rcases List.mem_cons.1 hn with rfl | hn
        · rw [hasName_append, hs, Bool.true_or]
        · exact ih seen n hn hv
      · simp only [newNames, hh, hs, Bool.false_eq_true, if_false]
        have hassoc : seen ++ a :: newNames (seen ++ [a]) rest
            = (seen ++ [a]) ++ newNames (seen ++ [a]) rest := by simp
        rw [hassoc]
        rcases List.mem_cons.1 hn with rfl | hn
        · rw [hasName_append, hasName_of_mem (by simp : n ∈ seen ++ [n]), Bool.true_or]
        · exact ih (seen ++ [a]) n hn hv

theorem filter_listed_new (l : List String) (ns : List String) (h : ∀ n ∈ ns, n ∈ l) :
    (ns.map (fun n => TService.new n [n])).filter (fun s => hasName l s.name)
        = ns.map (fun n => TService.new n [n])
      ∧ (ns.map (fun n => TService.new n [n])).filter (fun s => !hasName l s.name) = [] := by
  constructor
  · rw [List.filter_eq_self]
    intro s hs
    obtain ⟨n, hn, rfl⟩ := List.mem_map.1 hs
    exact hasName_of_mem (h n hn)
  · rw [List.filter_eq_nil_iff]
    intro s hs
    obtain ⟨n, hn, rfl⟩ := List.mem_map.1 hs
    have := hasName_of_mem (h n hn)
    simpa [TService.new] using this

theorem Scan_eq (l : List String) (v : List TService) :
    Scan true l v
      = (v.filter (fun s => hasName l s.name)
            ++ (newNames (names v) l).map (fun n => TService.new n [n]),
         (newNames (names v) l).map SvcCall.construct
            ++ (v.filter (fun s => !hasName l s.name)).map (fun s => SvcCall.Close s.name true)
            ++ (v.filter (fun s => hasName l s.name)
                  ++ (newNames (names v) l).map (fun n => TService.new n [n])).map
                (fun s => SvcCall.Check s.name)) := by
  have hnew := filter_listed_new l (newNames (names v) l)
    (fun n hn => (mem_newNames_imp l _ n hn).1)
  simp only [Scan, Bool.not_true, Bool.false_eq_true, if_false, addNew_eq, dropMissing_eq,
    checkAll_eq, List.filter_append, hnew.1, hnew.2, List.append_nil]

theorem names_first_scan (l : List String) : names (Scan true l []).1 = newNames [] l := by
  rw [Scan_eq, names_append, names_new]
  rfl

theorem names_Scan (l : List String) (v : List TService) :
    names (Scan true l v).1
      = (names v).filter (fun n => hasName l n) ++ newNames (names v) l := by
  rw [Scan_eq, names_append, names_new, names_filter v (fun n => hasName l n)]

theorem names_Scan_nodup (l : List String) (v : List TService) (h : (names v).Nodup) :
    (names (Scan true l v).1).Nodup := by
  rw [names_Scan]
  refine List.Nodup.append (h.filter _) (newNames_nodup _ _) ?_
  intro n h1 h2
  have h3 := (mem_newNames_imp l _ n h2).2.2
  rw [hasName_of_mem (List.mem_filter.1 h1).1] at h3
  exact Bool.noConfusion h3

theorem count_Check (l : List String) (v : List TService) (n : String) :
    (Scan true l v).2.count (SvcCall.Check n) = (names (Scan true l v).1).count n := by
  have hinj : Function.Injective SvcCall.Check := fun a b h => by injection h
  have h1 : ((newNames (names v) l).map SvcCall.construct).count (SvcCall.Check n) = 0 := by
    apply List.count_eq_zero_of_not_mem
    simp
  have h2 : ((v.filter (fun s => !hasName l s.name)).map
      (fun s => SvcCall.Close s.name true)).count (SvcCall.Check n) = 0 := by
    apply List.count_eq_zero_of_not_mem
    simp
  have h3 : ∀ u : List TService,
      (u.map (fun s => SvcCall.Check s.name)).count (SvcCall.Check n) = (names u).count n := by
    intro u
    have : u.map (fun s => SvcCall.Check s.name) = (names u).map SvcCall.Check := by
      simp [names, List.map_map, Function.comp_def]
    rw [this, List.count_map_of_injective _ _ hinj]
  rw [Scan_eq]
  simp only [List.count_append, h1, h2, h3, Nat.zero_add, names_append]

theorem filter_listed_first_scan (l : List String) :
    (Scan true l []).1.filter (fun s => hasName l s.name) = (Scan true l []).1 := by
  rw [List.filter_eq_self]
  intro s hs
  have hmem : s.name ∈ names (Scan true l []).1 := List.mem_map.2 ⟨s, hs, rfl⟩
  rw [names_first_scan] at hmem
  exact hasName_of_mem (mem_newNames_imp l _ _ hmem).1

theorem CloseAllServices_eq (force : Bool) (v : List TService) :
    CloseAllServices force v
      = (v.filter (fun s => s.Close_reply force),
         v.map (fun s => SvcCall.Close s.name force)) := by
  induction v with
  | nil => rfl
  | cons s rest ih =>
    cases h : s.Close_reply force <;>
      simp [CloseAllServices, ih, h, List.filter_cons]

/-- C5: for every directory listing (no name listed twice, names compared as
the platform does), a scan of an empty vector with the mutex held leaves one
freshly constructed service for each entry whose name does not start with a
dot, in enumeration order, so the names of the vector are the listing with the
dotted entries removed; the listing `.`, `..`, `.hidden`, `test1`, `test2`
gives a vector of length 2 with the names `test1`, `test2` in that order. -/
theorem Scan_empty_filters_dotted (listing : List String)
    (hdistinct : (listing.map foldCase).Nodup) :
    (Scan true listing []).1
        = (listing.filter (fun n => !hidden n)).map (fun n => TService.new n [n])
      ∧ names (Scan true listing []).1 = listing.filter (fun n => !hidden n)
      ∧ names (Scan true [".", "..", ".hidden", "test1", "test2"] []).1 = ["test1", "test2"]
      ∧ (Scan true [".", "..", ".hidden", "test1", "test2"] []).1.length = 2 := by
  have hnew : newNames (names ([] : List TService)) listing
      = listing.filter (fun n => !hidden n) := by
    rw [newNames_of_nodup listing _ hdistinct]
    apply List.filter_congr
    intro n _
    simp [names, hasName]
  refine ⟨?_, ?_, by decide, by decide⟩
  · rw [Scan_eq, hnew]; rfl
  · rw [names_first_scan]; exact hnew

/-- Witness for C5: the listing `.`, `..`, `.hidden`, `test1`, `test2` lists
no name twice, and the scan leaves the names `test1`, `test2`. -/
theorem Scan_empty_filters_dotted_witness :
    names (Scan true [".", "..", ".hidden", "test1", "test2"] []).1
      = [".", "..", ".hidden", "test1", "test2"].filter (fun n => !hidden n) :=
  (Scan_empty_filters_dotted [".", "..", ".hidden", "test1", "test2"] (by decide)).2.1

/-- C6: for every vector and every force argument, `CloseAllServices(force)`
calls `Close(force)` once on each service, in order, and leaves exactly the
services whose `Close` returned true, in their original order; with `test1`
answering true and `test2` false one service is left, and a forced pass in
which it answers false empties the vector. -/
theorem CloseAllServices_keeps_flagged (force : Bool) (v : List TService) :
    (CloseAllServices force v).2 = v.map (fun s => SvcCall.Close s.name force)
      ∧ (CloseAllServices force v).1 = v.filter (fun s => s.Close_reply force)
      ∧ (CloseAllServices force v).1.Sublist v
      ∧ (CloseAllServices false
            [{ TService.new "test1" ["test1"] with Close_reply := fun f => !f },
             { TService.new "test2" ["test2"] with Close_reply := fun _ => false }]).1.length = 1
      ∧ names (CloseAllServices false
            [{ TService.new "test1" ["test1"] with Close_reply := fun f => !f },
             { TService.new "test2" ["test2"] with Close_reply := fun _ => false }]).1 = ["test1"]
      ∧ (CloseAllServices true
          (CloseAllServices false
            [{ TService.new "test1" ["test1"] with Close_reply := fun f => !f },
             { TService.new "test2" ["test2"] with Close_reply := fun _ => false }]).1).1.length
          = 0 := by
  refine ⟨by rw [CloseAllServices_eq], by rw [CloseAllServices_eq], ?_, rfl, rfl, rfl⟩
  rw [CloseAllServices_eq]
  exact List.filter_sublist _

/-- C7: for every pair of successive listings with the mutex held (the second
listing no name twice, names compared as the platform does), the rescan leaves
first the services already in the vector whose directory is still listed, in
their original order and each exactly once (each at its original index when
every directory is still listed), and after them one new service for each
listed non-hidden name not yet known; `Check` is called exactly once on each
pre-existing survivor; a rescan over an unchanged listing leaves the vector
unchanged; `test1`, `test2` and then `test1`, `test2`, `test3` give a vector of
length 3. -/
theorem rescan_keeps_and_appends (first second : List String)
    (hdistinct : (second.map foldCase).Nodup) :
    (rescan first second).1
        = (Scan true first []).1.filter (fun s => hasName second s.name)
          ++ (second.filter (fun n => !hidden n && !known (Scan true first []).1 n)).map
              (fun n => TService.new n [n])
      ∧ ((Scan true first []).1.filter (fun s => hasName second s.name)).Sublist
          (Scan true first []).1
      ∧ (names (rescan first second).1).Nodup
      ∧ (∀ n : String, n ∈ names (Scan true first []).1 → hasName second n = true →
            (names (rescan first second).1).count n = 1
              ∧ (rescan first second).2.count (SvcCall.Check n) = 1)
      ∧ ((∀ n : String, n ∈ names (Scan true first []).1 → hasName second n = true) →
            (rescan first second).1
              = (Scan true first []).1
                ++ (second.filter (fun n => !hidden n && !known (Scan true first []).1 n)).map
                    (fun n => TService.new n [n]))
      ∧ (rescan first first).1 = (Scan true first []).1
      ∧ (rescan [".", "..", ".hidden", "test1", "test2"]
            [".", "..", ".hidden", "test1", "test2", "test3"]).1.length = 3 := by
  have hnd : (names (Scan true first []).1).Nodup := by
    rw [names_first_scan]; exact newNames_nodup _ _
  have hnd2 : (names (rescan first second).1).Nodup := names_Scan_nodup _ _ hnd
  have hnew : newNames (names (Scan true first []).1) second
      = second.filter (fun n => !hidden n && !known (Scan true first []).1 n) := by
    rw [newNames_of_nodup second _ hdistinct]
    apply List.filter_congr
    intro n _
    rw [known_eq]
  have hvec : (rescan first second).1
      = (Scan true first []).1.filter (fun s => hasName second s.name)
        ++ (second.filter (fun n => !hidden n && !known (Scan true first []).1 n)).map
            (fun n => TService.new n [n]) := by
    rw [rescan, Scan_eq, hnew]
  refine ⟨hvec, List.filter_sublist _, hnd2, ?_, ?_, ?_, by decide⟩
  · intro n hn hs
    have hmem : n ∈ names (rescan first second).1 := by
      rw [rescan, names_Scan]
      exact List.mem_append_left _ (List.mem_filter.2 ⟨hn, hs⟩)
    refine ⟨List.count_eq_one_of_mem hnd2 hmem, ?_⟩
    rw [rescan, count_Check]
    exact List.count_eq_one_of_mem hnd2 hmem
  · intro hall
    have hkeep : (Scan true first []).1.filter (fun s => hasName second s.name)
        = (Scan true first []).1 := by
      rw [List.filter_eq_self]
      intro s hs
      exact hall s.name (List.mem_map.2 ⟨s, hs, rfl⟩)
    rw [hvec, hkeep]
  · have hnil : newNames (names (Scan true first []).1) first = [] := by
      apply newNames_eq_nil
      intro n hn hv
      rw [names_first_scan]
      exact newNames_covers first [] n hn hv
    rw [rescan, Scan_eq, filter_listed_first_scan, hnil]
    simp

/-- Witness for C7: after `test1`, `test2` and then `test1`, `test2`, `test3`,
the rescan kept `test1` once, called `Check` on it once, and left the first
vector followed by the new service `test3`. -/
theorem rescan_keeps_and_appends_witness :
    ((names (rescan [".", "..", ".hidden", "test1", "test2"]
          [".", "..", ".hidden", "test1", "test2", "test3"]).1).count "test1" = 1
        ∧ (rescan [".", "..", ".hidden", "test1", "test2"]
            [".", "..", ".hidden", "test1", "test2", "test3"]).2.count (SvcCall.Check "test1")
          = 1)
      ∧ names (rescan [".", "..", ".hidden", "test1", "test2"]
          [".", "..", ".hidden", "test1", "test2", "test3"]).1 = ["test1", "test2", "test3"] := by
  have h := rescan_keeps_and_appends [".", "..", ".hidden", "test1", "test2"]
    [".", "..", ".hidden", "test1", "test2", "test3"] (by decide)
  refine ⟨h.2.2.2.1 "test1" (by decide) (by decide), ?_⟩
  rw [h.2.2.2.2.1 (by decide)]
  decide

end winss.SvScan
